import Mathlib

/-!
Verification of the LMS-Toolkit incremental sync / reconciliation layer.

Shallow embedding of:
* `schoology_extractor/helpers/sync.py` (the sync reconciler),
* `edfi_lms_ds_loader/migrator.py` (the schema-migration runner),
* `edfi_lms_ds_loader/db_operations/MSSQL_sql_builder.py` and
  `PGSQL_sql_builder.py` (the staging-to-production merge statements),
* the per-entity mappers of the Schoology and Google Classroom extractors,
* `edfi_canvas_extractor/graphql/extractor.py` (student list assembly).

Machine timestamps are modelled as `Nat`; each call to a routine that reads the
wall clock receives the clock value as an explicit `now` argument (the Python
code reads `datetime.now()` several times inside one call of `sync_resource`;
all of those reads happen within one batch-sequential call, modelled as a
single per-call timestamp).
-/

namespace Sync

/-- One raw record of a fetched batch, as handed to `sync_resource`
(`data: list` of dictionaries).  The designated identifier column is `id`;
all remaining columns are abstracted into `payload`. -/
structure Record where
  id : Nat
  payload : Nat
deriving DecidableEq, Repr

/-- One row of the durable SQLite table for a resource.  The list position of
a row in `SyncDB.rows` plays the role of the SQLite `rowid` (monotonically
assigned at append time). -/
structure Row where
  id : Nat
  payload : Nat
  createDate : Nat
  lastModifiedDate : Nat
deriving DecidableEq, Repr

/-- The durable store for one resource: whether the table has been created
(`_table_exist` queries `sqlite_master`), and its rows in `rowid` order. -/
structure SyncDB where
  tableExists : Bool
  rows : List Row
deriving DecidableEq, Repr

/-- A fresh store: no table yet. -/
def freshDB : SyncDB := { tableExists := false, rows := [] }

/-- `_get_created_date` (sync.py 81-93): `SELECT CreateDate FROM resource WHERE
id == x`, take the first result row (`result.first()`), else the current
date. -/
def get_created_date (rows : List Row) (i : Nat) (now : Nat) : Nat :=
  match rows.find? (fun r => r.id == i) with
  | some r => r.createDate
  | none => now

/-- `_remove_duplicates` (sync.py 67-78): `DELETE FROM resource WHERE rowid NOT
IN (SELECT max(rowid) FROM resource GROUP BY id)` — of the rows sharing an id,
only the one with the greatest rowid (the last-appended one) survives. -/
def remove_duplicates : List Row → List Row
  | [] => []
  | r :: rest =>
    if rest.any (fun s => s.id == r.id) then remove_duplicates rest
    else r :: remove_duplicates rest

/-- The reconciled batch built inside `sync_resource` (sync.py 103-111): if the
table exists, `CreateDate` is looked up per identifier against the current
store; otherwise every record gets `CreateDate = now`.  Every record gets
`LastModifiedDate = now`. -/
def sync_new_rows (now : Nat) (db : SyncDB) (batch : List Record) : List Row :=
  batch.map (fun rec =>
    { id := rec.id
      payload := rec.payload
      createDate := if db.tableExists then get_created_date db.rows rec.id now else now
      lastModifiedDate := now })

/-- `sync_resource` (sync.py 96-116): build the reconciled batch, append it to
the store (`_write_resource_to_db`, `if_exists="append"`), prune duplicates
(`_remove_duplicates`), and return the reconciled batch. -/
def sync_resource (now : Nat) (db : SyncDB) (batch : List Record) :
    List Row × SyncDB :=
  let newRows := sync_new_rows now db batch
  (newRows, { tableExists := true, rows := remove_duplicates (db.rows ++ newRows) })

/-- Point at which the durable store becomes unreachable during a
`sync_resource` call. -/
inductive FailurePoint
  | beforeWrite
  | betweenWriteAndPrune
  | noFailure
deriving DecidableEq, Repr

/-- `sync_resource` under a storage failure.  `_write_resource_to_db`
(sync.py 37-45, `DataFrame.to_sql`, one insert transaction) and
`_remove_duplicates` (sync.py 67-78, a separate `db_engine.connect()` and a
separate transaction) run sequentially; a Python exception raised by the
second call propagates out of `sync_resource` while the commit of the first
call persists.  Returns the (optional) reconciled batch and the store state
observable after the call. -/
def sync_resource_with_failure (fp : FailurePoint) (now : Nat) (db : SyncDB)
    (batch : List Record) : Option (List Row) × SyncDB :=
  match fp with
  | .beforeWrite => (none, db)
  | .betweenWriteAndPrune =>
      (none, { tableExists := true, rows := db.rows ++ sync_new_rows now db batch })
  | .noFailure =>
      let s := sync_resource now db batch
      (some s.1, s.2)

end Sync

namespace Migrator

/-- Strip everything up to and including the last path separator, mirroring
`migration_script.split(path.sep)[-1]` in `_run_migration_script`
(migrator.py 90-101).  Character-level recursion so that the definition
reduces inside the kernel. -/
def baseNameAux : List Char → List Char → List Char
  | [], acc => acc
  | c :: rest, acc =>
      if c = '/' then baseNameAux rest [] else baseNameAux rest (acc ++ [c])

/-- Base name of a script path. -/
def scriptBaseName (p : String) : String := String.mk (baseNameAux p.data [])

/-- `_script_has_been_run` (migrator.py 42-60): `SELECT 1 FROM
lms.migrationjournal WHERE script = '{migration}'`, true exactly when the
journal holds the queried string.  A fresh database is the empty journal. -/
def script_has_been_run (journal : List String) (migration : String) : Bool :=
  journal.contains migration

/-- `_record_migration_in_journal` (migrator.py 63-69): `INSERT INTO
lms.migrationjournal (script) VALUES ('{migration}')`. -/
def record_migration_in_journal (journal : List String) (migration : String) :
    List String :=
  journal ++ [migration]

/-- `_run_migration_script` (migrator.py 90-101): run the script, then record
its base name in the journal (only the journal effect is modelled; the DDL
effect of the script itself is outside the reconciliation state). -/
def run_migration_script (journal : List String) (migrationScript : String) :
    List String :=
  record_migration_in_journal journal (scriptBaseName migrationScript)

/-- `migrate` (migrator.py 104-129): iterate over the sorted script paths
returned by `_get_file_names` (full paths, `file.path`); skip a script when
`_script_has_been_run` reports it, otherwise run it.  Returns the list of
scripts actually run and the final journal. -/
def migrate (journal : List String) (files : List String) :
    List String × List String :=
  files.foldl
    (fun acc f =>
      if script_has_been_run acc.2 f then acc
      else (acc.1 ++ [f], run_migration_script acc.2 f))
    ([], journal)

end Migrator

namespace Loader

/-- One production-table row (`lms.{table}`): the natural key
`(SourceSystem, SourceSystemIdentifier)`, the entity's mutable attribute
columns (abstracted into `attributes`), and the bookkeeping columns. -/
structure ProdRow where
  sourceSystem : String
  sourceSystemIdentifier : String
  attributes : Nat
  lastModifiedDate : Nat
  createDate : Nat
  deletedAt : Option Nat
deriving DecidableEq, Repr

/-- One staging-table row (`lms.stg_{table}`): the natural key plus the
columns loaded from the UDM CSV (no `DeletedAt` column). -/
structure StgRow where
  sourceSystem : String
  sourceSystemIdentifier : String
  attributes : Nat
  lastModifiedDate : Nat
  createDate : Nat
deriving DecidableEq, Repr

/-- Natural key of a staging row. -/
def stgKey (s : StgRow) : String × String :=
  (s.sourceSystem, s.sourceSystemIdentifier)

/-- Natural key of a production row. -/
def prodKey (t : ProdRow) : String × String :=
  (t.sourceSystem, t.sourceSystemIdentifier)

/-- The join condition used by every statement of the builders:
`t.SourceSystemIdentifier = stg.SourceSystemIdentifier AND t.SourceSystem =
stg.SourceSystem`. -/
def key_matches (t : ProdRow) (s : StgRow) : Bool :=
  t.sourceSystemIdentifier == s.sourceSystemIdentifier &&
    t.sourceSystem == s.sourceSystem

/-- `insert_new_records_to_production` (MSSQL_sql_builder.py 18-38):
`INSERT INTO lms.t SELECT ... FROM lms.stg_t WHERE NOT EXISTS (key in
lms.t)`.  The `NOT EXISTS` subquery reads the target table as of the start of
the statement; inserted rows carry the staged column values and a NULL
`DeletedAt`. -/
def insert_new_records_to_production (prod : List ProdRow) (stg : List StgRow) :
    List ProdRow :=
  prod ++
    ((stg.filter (fun s => !(prod.any (fun t => key_matches t s)))).map
      (fun s =>
        { sourceSystem := s.sourceSystem
          sourceSystemIdentifier := s.sourceSystemIdentifier
          attributes := s.attributes
          lastModifiedDate := s.lastModifiedDate
          createDate := s.createDate
          deletedAt := none }))

/-- Modelled from the spec: the `update_columns` argument that the callers in
`mssql_lms_operations.py` / `df_to_db.py` (not under src/) pass to
`copy_updates_to_production` — the staged mutable columns and
`LastModifiedDate` are overwritten and any stale `DeletedAt` is cleared
("rows that reappear must have any stale DeletedAt cleared (handled by
operation 2 ...)"); `CreateDate` is not in the update list ("CreateDate is
never overwritten"). -/
def update_columns_applied (t : ProdRow) (s : StgRow) : ProdRow :=
  { t with
      attributes := s.attributes
      lastModifiedDate := s.lastModifiedDate
      deletedAt := none }

/-- Per-row effect of `copy_updates_to_production` (MSSQL_sql_builder.py
230-247, PGSQL_sql_builder.py 258-280): a production row joined to a staging
row on the natural key with `t.LastModifiedDate <> stg.LastModifiedDate` gets
the update columns applied; any other row is untouched. -/
def copy_updates_row (stg : List StgRow) (t : ProdRow) : ProdRow :=
  match stg.find?
      (fun s => key_matches t s && !(t.lastModifiedDate == s.lastModifiedDate)) with
  | some s => update_columns_applied t s
  | none => t

/-- `copy_updates_to_production` applied to the whole production table. -/
def copy_updates_to_production (prod : List ProdRow) (stg : List StgRow) :
    List ProdRow :=
  prod.map (copy_updates_row stg)

/-- Per-row effect of `soft_delete_from_production` (MSSQL_sql_builder.py
250-275): `SET DeletedAt = getdate()` on rows of this source system with no
staging match and `DeletedAt IS NULL`. -/
def soft_delete_row (now : Nat) (sourceSystem : String) (stg : List StgRow)
    (t : ProdRow) : ProdRow :=
  if !(stg.any (fun s => key_matches t s)) && t.deletedAt.isNone &&
      t.sourceSystem == sourceSystem then
    { t with deletedAt := some now }
  else t

/-- `soft_delete_from_production` applied to the whole production table. -/
def soft_delete_from_production (now : Nat) (sourceSystem : String)
    (prod : List ProdRow) (stg : List StgRow) : List ProdRow :=
  prod.map (soft_delete_row now sourceSystem stg)

/-- One full production merge for an entity, in the order fixed by the claim
and the spec (§4.3): insert new, update changed, soft-delete missing. -/
def apply_merge (now : Nat) (sourceSystem : String) (prod : List ProdRow)
    (stg : List StgRow) : List ProdRow :=
  soft_delete_from_production now sourceSystem
    (copy_updates_to_production (insert_new_records_to_production prod stg) stg)
    stg

/-- One row of the `lms.LMSUser` production table: surrogate identifier plus
natural key. -/
structure UserRow where
  lmsUserIdentifier : Nat
  sourceSystem : String
  sourceSystemIdentifier : String
deriving DecidableEq, Repr

/-- One staging row of a user-related table (`lms.stg_{table}` with an
`LMSUserSourceSystemIdentifier` natural-key reference). -/
structure UserRelStgRow where
  sourceSystem : String
  sourceSystemIdentifier : String
  lmsUserSourceSystemIdentifier : String
  attributes : Nat
deriving DecidableEq, Repr

/-- One production row of a user-related table: the resolved surrogate
`LMSUserIdentifier` plus the staged columns. -/
structure UserRelProdRow where
  lmsUserIdentifier : Nat
  sourceSystem : String
  sourceSystemIdentifier : String
  attributes : Nat
deriving DecidableEq, Repr

/-- `insert_new_records_to_production_for_user_relation`
(MSSQL_sql_builder.py 41-71): `INSERT ... SELECT LMSUser.LMSUserIdentifier,
... FROM lms.stg_t INNER JOIN lms.LMSUser ON stg.LMSUserSourceSystemIdentifier
= LMSUser.SourceSystemIdentifier AND stg.SourceSystem = LMSUser.SourceSystem
WHERE NOT EXISTS (key in lms.t)`: a staging row yields one inserted row per
joining `LMSUser` row, and none when the reference does not resolve.  The
rows a single staging row contributes through the `INNER JOIN lms.LMSUser`
are `user_join_rows`: -/
def user_join_rows (users : List UserRow) (s : UserRelStgRow) :
    List UserRelProdRow :=
  (users.filter (fun u =>
      s.lmsUserSourceSystemIdentifier == u.sourceSystemIdentifier &&
        s.sourceSystem == u.sourceSystem)).map
    (fun u =>
      { lmsUserIdentifier := u.lmsUserIdentifier
        sourceSystem := s.sourceSystem
        sourceSystemIdentifier := s.sourceSystemIdentifier
        attributes := s.attributes })

def insert_new_records_to_production_for_user_relation
    (prod : List UserRelProdRow) (stg : List UserRelStgRow)
    (users : List UserRow) : List UserRelProdRow :=
  prod ++
    ((stg.filter (fun s =>
        !(prod.any (fun t =>
          t.sourceSystemIdentifier == s.sourceSystemIdentifier &&
            t.sourceSystem == s.sourceSystem)))).flatMap
      (user_join_rows users))

/-- Number of rows of a user-related production table carrying a given
natural key. -/
def relKeyCount (rows : List UserRelProdRow) (ss ssid : String) : Nat :=
  (rows.filter (fun t =>
    t.sourceSystem == ss && t.sourceSystemIdentifier == ssid)).length

/-- One row of the `lms.Assignment` production table (surrogate identifier
plus natural key), as joined by the submission-type statements. -/
structure AssignmentRow where
  assignmentIdentifier : Nat
  sourceSystem : String
  sourceSystemIdentifier : String
deriving DecidableEq, Repr

/-- One row of `lms.AssignmentSubmissionType`. -/
structure SubTypeRow where
  assignmentIdentifier : Nat
  submissionType : String
  deletedAt : Option Nat
deriving DecidableEq, Repr

/-- One row of `lms.stg_AssignmentSubmissionType`. -/
structure StgSubTypeRow where
  sourceSystem : String
  sourceSystemIdentifier : String
  submissionType : String
deriving DecidableEq, Repr

/-- The `EXISTS` subquery of `unsoft_delete_returned_submission_types`
(MSSQL_sql_builder.py 421-448) together with its `INNER JOIN lms.Assignment`
and `SourceSystem = '{source_system}'` filter: the submission-type row joins
an assignment of this source system that reappears in the staging table with
this submission type. -/
def subtype_returned (assignments : List AssignmentRow)
    (stg : List StgSubTypeRow) (sourceSystem : String) (r : SubTypeRow) : Bool :=
  assignments.any (fun a =>
    a.assignmentIdentifier == r.assignmentIdentifier &&
      a.sourceSystem == sourceSystem &&
      stg.any (fun s =>
        s.sourceSystem == a.sourceSystem &&
          s.sourceSystemIdentifier == a.sourceSystemIdentifier &&
          s.submissionType == r.submissionType))

/-- `unsoft_delete_returned_submission_types` (MSSQL_sql_builder.py 421-448):
`SET DeletedAt = NULL` on every submission-type row whose assignment
reappears in staging with this submission type. -/
def unsoft_delete_returned_submission_types (assignments : List AssignmentRow)
    (prod : List SubTypeRow) (stg : List StgSubTypeRow) (sourceSystem : String) :
    List SubTypeRow :=
  prod.map (fun r =>
    if subtype_returned assignments stg sourceSystem r then
      { r with deletedAt := none }
    else r)

end Loader

namespace Mapping

/-- A pandas `DataFrame`: a column list and one association list of cells per
row. -/
structure DataFrame where
  columns : List String
  rows : List (List (String × String))
deriving DecidableEq, Repr

/-- `DataFrame.empty` in pandas: true when either axis has length zero. -/
def DataFrame.isEmptyDF (df : DataFrame) : Bool :=
  df.rows.isEmpty || df.columns.isEmpty

/-- Cell of a row under a column name (missing cells read as the empty
string). -/
def getCell (row : List (String × String)) (c : String) : String :=
  ((row.find? (fun p => p.1 == c)).map Prod.snd).getD ""

/-- Take the characters before the first `#`. -/
def untilHash : List Char → List Char
  | [] => []
  | c :: rest => if c = '#' then [] else c :: untilHash rest

/-- The second `#`-separated component of a string, as in
`x.split('#')[1]`. -/
def secondHashComponent : List Char → String
  | [] => ""
  | c :: rest =>
      if c = '#' then String.mk (untilHash rest) else secondHashComponent rest

/-- Modelled from the spec: the constant column values injected by every
mapper ("injects constant fields (`SourceSystem`, `EntityStatus`)"); the
`constants` modules of the extractors are not under src/. -/
def SCHOOLOGY_SOURCE_SYSTEM : String := "Schoology"

/-- Modelled from the spec: the Google Classroom `SOURCE_SYSTEM` constant. -/
def GOOGLE_SOURCE_SYSTEM : String := "Google"

/-- Modelled from the spec: the `EntityStatus` constant (`ACTIVE`). -/
def ENTITY_STATUS_ACTIVE : String := "active"

/-- Columns selected from the input by the Schoology submissions mapper
(submissions.py 47-57); pandas raises a `KeyError` when one is missing on a
nonempty input. -/
def submissionInputColumns : List String :=
  ["id", "created", "late", "draft", "uid", "CreateDate", "LastModifiedDate"]

/-- Column set of the submissions mapper's result. -/
def submissionUdmColumns : List String :=
  ["SourceSystemIdentifier", "SubmissionDateTime",
   "LMSUserSourceSystemIdentifier", "CreateDate", "LastModifiedDate",
   "SourceSystem", "EntityStatus", "SubmissionStatus",
   "AssignmentSourceSystemIdentifier", "EarnedPoints", "Grade"]

/-- `submissions.map_to_udm` (schoology mapping/submissions.py 13-83).  An
empty input is returned unchanged (line 44-45).  On a nonempty input the
source columns are selected, constants injected, `late`/`draft` dropped and
the remaining columns renamed.  `SubmissionStatus` stays `on-time` for every
row: the `iterrows` loop at lines 62-64 assigns into per-row copies and never
writes back into the frame.  The `SubmissionDateTime` timestamp reformatting
(line 81) is kept abstract (cell value passed through). -/
def submissions_map_to_udm (df : DataFrame) : Except String DataFrame :=
  if df.isEmptyDF then .ok df
  else if !(submissionInputColumns.all (fun c => df.columns.contains c)) then
    .error "KeyError"
  else
    .ok { columns := submissionUdmColumns
          rows := df.rows.map (fun r =>
            [("SourceSystemIdentifier", getCell r "id"),
             ("SubmissionDateTime", getCell r "created"),
             ("LMSUserSourceSystemIdentifier", getCell r "uid"),
             ("CreateDate", getCell r "CreateDate"),
             ("LastModifiedDate", getCell r "LastModifiedDate"),
             ("SourceSystem", SCHOOLOGY_SOURCE_SYSTEM),
             ("EntityStatus", ENTITY_STATUS_ACTIVE),
             ("SubmissionStatus", "on-time"),
             ("AssignmentSourceSystemIdentifier",
              secondHashComponent (getCell r "id").data),
             ("EarnedPoints", ""),
             ("Grade", "")]) }

/-- One `attendance` element of an item's `attendances.attendance` list. -/
structure AttendanceCell where
  enrollment_id : Nat
  status : Nat
deriving DecidableEq, Repr

/-- One element of a date node's `statuses.status` list; `attendances` is
absent when the API omitted the key. -/
structure AttendanceStatusItem where
  attendances : Option (List AttendanceCell)
deriving DecidableEq, Repr

/-- One date node of the Schoology attendance API response; `statuses` is
absent when the API omitted the key. -/
structure AttendanceNode where
  date : String
  statuses : Option (List AttendanceStatusItem)
deriving DecidableEq, Repr

/-- `_flatten_into_dataframe` (schoology mapping/attendance.py 12-36):
one output row per attendance cell of each well-formed node. -/
def flatten_into_dataframe (attendance : List AttendanceNode) :
    List (Nat × String × Nat) :=
  attendance.flatMap (fun node =>
    match node.statuses with
    | none => []
    | some items =>
        items.flatMap (fun item =>
          match item.attendances with
          | none => []
          | some cells =>
              cells.map (fun a => (a.enrollment_id, node.date, a.status))))

/-- `_get_status` (attendance.py 39-41). -/
def get_status (statusCode : Nat) : String :=
  if statusCode = 1 then "present"
  else if statusCode = 2 then "absent"
  else if statusCode = 3 then "late"
  else if statusCode = 4 then "excused"
  else "Unknown status: " ++ toString statusCode

/-- Column set of the attendance mapper's nonempty result
(attendance.py 107-117). -/
def attendanceUdmColumns : List String :=
  ["SourceSystem", "SourceSystemIdentifier", "EntityStatus",
   "AttendanceStatus", "EventDate", "LMSUserSourceSystemIdentifier",
   "LMSSectionSourceSystemIdentifier"]

/-- `attendance.map_to_udm` (schoology mapping/attendance.py 44-122).  An
empty attendance list yields `pd.DataFrame()` — an empty frame with no
columns (lines 74-75).  Otherwise the flattened rows are merged (inner join)
with the section associations on `enrollment_id` against the association's
`SourceSystemIdentifier` cast to an integer (lines 97-105). -/
def attendance_map_to_udm (attendance : List AttendanceNode)
    (section_associations : DataFrame) : Except String DataFrame :=
  if attendance.length = 0 then .ok { columns := [], rows := [] }
  else if !(["SourceSystemIdentifier", "LMSUserSourceSystemIdentifier",
             "LMSSectionSourceSystemIdentifier"].all
        (fun c => section_associations.columns.contains c)) then
    .error "KeyError"
  else
    .ok { columns := attendanceUdmColumns
          rows :=
            (flatten_into_dataframe attendance).flatMap (fun x =>
              (section_associations.rows.filter (fun sa =>
                  (getCell sa "SourceSystemIdentifier").toNat?.getD 0 ==
                    x.1)).map (fun sa =>
                [("SourceSystem", SCHOOLOGY_SOURCE_SYSTEM),
                 ("SourceSystemIdentifier",
                  toString x.1 ++ "#" ++ x.2.1),
                 ("EntityStatus", ENTITY_STATUS_ACTIVE),
                 ("AttendanceStatus", get_status x.2.2),
                 ("EventDate", x.2.1),
                 ("LMSUserSourceSystemIdentifier",
                  getCell sa "LMSUserSourceSystemIdentifier"),
                 ("LMSSectionSourceSystemIdentifier",
                  getCell sa "LMSSectionSourceSystemIdentifier")])) }

/-- Columns selected from the Courses input (sections.py 45-54). -/
def courseInputColumns : List String :=
  ["id", "courseState", "descriptionHeading", "name", "creationTime",
   "updateTime"]

/-- Column set of the Google Classroom sections mapper's result. -/
def sectionUdmColumns : List String :=
  ["SourceSystemIdentifier", "LMSSectionStatus", "SectionDescription",
   "Title", "CreateDate", "LastModifiedDate", "SourceSystem", "EntityStatus",
   "SISSectionIdentifier", "Term"]

/-- `courses_to_sections_df` (google_classroom mapping/sections.py 13-71).
The `assert` statements at lines 40-43 fail — raising an `AssertionError` —
when a required column is absent, also on an empty frame; the column
selection then needs `creationTime`/`updateTime` as well (KeyError
otherwise).  A well-formed input is renamed to the UDM columns with the
constant fields injected. -/
def courses_to_sections_df (courses_df : DataFrame) : Except String DataFrame :=
  if !(courses_df.columns.contains "id") then .error "AssertionError: id"
  else if !(courses_df.columns.contains "courseState") then
    .error "AssertionError: courseState"
  else if !(courses_df.columns.contains "descriptionHeading") then
    .error "AssertionError: descriptionHeading"
  else if !(courses_df.columns.contains "name") then
    .error "AssertionError: name"
  else if !(courseInputColumns.all (fun c => courses_df.columns.contains c)) then
    .error "KeyError"
  else
    .ok { columns := sectionUdmColumns
          rows := courses_df.rows.map (fun r =>
            [("SourceSystemIdentifier", getCell r "id"),
             ("LMSSectionStatus", getCell r "courseState"),
             ("SectionDescription", getCell r "descriptionHeading"),
             ("Title", getCell r "name"),
             ("CreateDate", getCell r "creationTime"),
             ("LastModifiedDate", getCell r "updateTime"),
             ("SourceSystem", GOOGLE_SOURCE_SYSTEM),
             ("EntityStatus", ENTITY_STATUS_ACTIVE),
             ("SISSectionIdentifier", ""),
             ("Term", "")]) }

end Mapping

namespace Canvas

/-- One student record assembled by `GraphQLExtractor.extract`
(graphql/extractor.py 126-136): appended once per active or invited
enrollment, so the same student id can occur repeatedly. -/
structure Student where
  id : String
  sis_user_id : String
  name : String
deriving DecidableEq, Repr

/-- Modelled from the spec: `remove_duplicates` lives in
`graphql/canvas_helper.py`, which is not under src/; as used by
`get_students` (graphql/extractor.py 225) it drops the entries whose `id`
already occurred, keeping one occurrence per student id. -/
def remove_duplicates : List Student → List Student
  | [] => []
  | s :: rest =>
      s :: (remove_duplicates rest).filter (fun t => !(t.id == s.id))

/-- Comparison used by `sorted(students, key=lambda x: x["id"])`
(graphql/extractor.py 226): ascending order of the (string-valued) id. -/
def studentLE (a b : Student) : Prop := a.id ≤ b.id

instance : DecidableRel studentLE := fun a b => by
  unfold studentLE; infer_instance

instance : IsTotal Student studentLE := ⟨fun a b => le_total a.id b.id⟩

instance : IsTrans Student studentLE :=
  ⟨fun _ _ _ h₁ h₂ => le_trans h₁ h₂⟩

/-- `GraphQLExtractor.get_students` (graphql/extractor.py 216-226): drop
duplicate ids, then sort ascending by id (Python's `sorted` realised as a
stable insertion sort). -/
def get_students (students : List Student) : List Student :=
  List.insertionSort studentLE (remove_duplicates students)

end Canvas

namespace Loader

/-- Property packaging of claim C3's conclusion: after one full merge of a
staging batch, re-applying each of the three operations with the same
staging content changes nothing. -/
def mergeSecondApplicationProp (now1 now2 : Nat) (ss : String)
    (prod : List ProdRow) (stg : List StgRow) : Prop :=
  insert_new_records_to_production (apply_merge now1 ss prod stg) stg =
      apply_merge now1 ss prod stg ∧
  copy_updates_to_production (apply_merge now1 ss prod stg) stg =
      apply_merge now1 ss prod stg ∧
  soft_delete_from_production now2 ss (apply_merge now1 ss prod stg) stg =
      apply_merge now1 ss prod stg

/-- Property packaging of claim C8's conclusion: the update touches exactly
the production rows having a key-matching staging row with a different
`LastModifiedDate`, and rewrites only the mutable columns — never
`CreateDate` or the natural key. -/
def copyUpdatesScopeProp (prod : List ProdRow) (stg : List StgRow) : Prop :=
  copy_updates_to_production prod stg = prod.map (copy_updates_row stg) ∧
  (∀ t : ProdRow,
      (∀ s ∈ stg, key_matches t s = true →
        t.lastModifiedDate = s.lastModifiedDate) →
      copy_updates_row stg t = t) ∧
  (∀ t : ProdRow, ∀ s : StgRow,
      stg.find? (fun s2 => key_matches t s2 &&
        !(t.lastModifiedDate == s2.lastModifiedDate)) = some s →
      (copy_updates_row stg t = update_columns_applied t s ∧
        key_matches t s = true ∧
        t.lastModifiedDate ≠ s.lastModifiedDate ∧ s ∈ stg)) ∧
  (∀ t : ProdRow, ∀ s : StgRow,
      (update_columns_applied t s).createDate = t.createDate ∧
      (update_columns_applied t s).sourceSystem = t.sourceSystem ∧
      (update_columns_applied t s).sourceSystemIdentifier =
        t.sourceSystemIdentifier ∧
      (update_columns_applied t s).attributes = s.attributes ∧
      (update_columns_applied t s).lastModifiedDate = s.lastModifiedDate ∧
      (update_columns_applied t s).deletedAt = none)

/-- Property packaging of claim C6's conclusion: the soft delete touches only
not-yet-deleted rows of this source system with no staging match (so a
deletion timestamp, once set, is never changed), and the un-delete pass
clears `DeletedAt` on every submission-type row whose assignment reappears
in staging. -/
def softDeleteLifecycleProp (now : Nat) (ss : String) (stg : List StgRow)
    (assignments : List AssignmentRow) (stypes : List SubTypeRow)
    (sstg : List StgSubTypeRow) : Prop :=
  (∀ t : ProdRow, ∀ d : Nat, t.deletedAt = some d →
      soft_delete_row now ss stg t = t) ∧
  (∀ t : ProdRow, t.deletedAt = none →
      (∀ s ∈ stg, key_matches t s = false) → t.sourceSystem = ss →
      (soft_delete_row now ss stg t).deletedAt = some now) ∧
  (∀ t : ProdRow, (∃ s ∈ stg, key_matches t s = true) →
      soft_delete_row now ss stg t = t) ∧
  (∀ now2 : Nat, ∀ prod : List ProdRow,
      soft_delete_from_production now2 ss
          (soft_delete_from_production now ss prod stg) stg =
        soft_delete_from_production now ss prod stg) ∧
  (∀ r ∈ unsoft_delete_returned_submission_types assignments stypes sstg ss,
      subtype_returned assignments sstg ss r = true → r.deletedAt = none)

end Loader

namespace Sync

/-- The store resulting from reconciling batch `B1` at time `t1` and then
batch `B2` at time `t2`, starting from a fresh store. -/
def twoPullStore (t1 t2 : Nat) (B1 B2 : List Record) : SyncDB :=
  (sync_resource t2 (sync_resource t1 freshDB B1).2 B2).2

/-- Property packaging of claim C1's conclusion for two consecutive pulls
against an initially fresh store: one row per identifier of the union,
`CreateDate` from the first pull for identifiers seen then, from the second
pull otherwise, and `LastModifiedDate` of the whole returned batch equal to
the second pull's timestamp. -/
def syncTwoPullsProp (t1 t2 : Nat) (B1 B2 : List Record) : Prop :=
  ((twoPullStore t1 t2 B1 B2).rows.map Row.id).Nodup ∧
  (∀ i, i ∈ (twoPullStore t1 t2 B1 B2).rows.map Row.id ↔
      (i ∈ B1.map Record.id ∨ i ∈ B2.map Record.id)) ∧
  (∀ r ∈ (twoPullStore t1 t2 B1 B2).rows,
      r.id ∈ B1.map Record.id → r.createDate = t1) ∧
  (∀ r ∈ (twoPullStore t1 t2 B1 B2).rows,
      r.id ∉ B1.map Record.id → r.createDate = t2) ∧
  (∀ r ∈ (sync_resource t2 (sync_resource t1 freshDB B1).2 B2).1,
      r.lastModifiedDate = t2)

/-- Property packaging of claim C2's conclusion: after one arbitrary
`sync_resource` call the store holds one row per identifier — the most
recently written one — and the identifier set is the union of the previous
set and the batch's. -/
def syncInvariantProp (now : Nat) (db : SyncDB) (batch : List Record) : Prop :=
  (((sync_resource now db batch).2.rows.map Row.id).Nodup) ∧
  (∀ i, i ∈ (sync_resource now db batch).2.rows.map Row.id ↔
      (i ∈ db.rows.map Row.id ∨ i ∈ batch.map Record.id)) ∧
  (∀ r ∈ (sync_resource now db batch).2.rows,
      ((db.rows ++ sync_new_rows now db batch).filter
        (fun s => s.id == r.id)).getLast? = some r)

theorem mem_id_remove_duplicates (l : List Row) (i : Nat) :
    i ∈ (remove_duplicates l).map Row.id ↔ i ∈ l.map Row.id := by
  induction l with
  | nil => simp [remove_duplicates]
  | cons r rest ih =>
    rcases hany : rest.any (fun s => s.id == r.id) with _ | _
    · simp only [remove_duplicates, hany, Bool.false_eq_true, if_false,
        List.map_cons, List.mem_cons]
      rw [ih]
    · simp only [remove_duplicates, hany, if_true, List.map_cons,
        List.mem_cons]
      rw [ih]
      constructor
      · exact Or.inr
      · rintro (hi | hi)
        · subst hi
          rcases List.any_eq_true.mp hany with ⟨s, hs, hs2⟩
          exact List.mem_map.mpr ⟨s, hs, Nat.beq_eq.mp (by simpa using hs2)⟩
        · exact hi

theorem nodup_id_remove_duplicates (l : List Row) :
    ((remove_duplicates l).map Row.id).Nodup := by
  induction l with
  | nil => simp [remove_duplicates]
  | cons r rest ih =>
    rcases hany : rest.any (fun s => s.id == r.id) with _ | _
    · simp only [remove_duplicates, hany, Bool.false_eq_true, if_false,
        List.map_cons]
      refine List.Nodup.cons ?_ ih
      intro hmem
      rw [mem_id_remove_duplicates] at hmem
      rcases List.mem_map.mp hmem with ⟨s, hs, hsid⟩
      have : rest.any (fun s => s.id == r.id) = true :=
        List.any_eq_true.mpr ⟨s, hs, by simp [hsid]⟩
      simp [this] at hany
    · simpa only [remove_duplicates, hany, if_true] using ih

theorem mem_of_mem_remove_duplicates {l : List Row} {r : Row}
    (h : r ∈ remove_duplicates l) : r ∈ l := by
  induction l with
  | nil => simp [remove_duplicates] at h
  | cons a rest ih =>
    rcases hany : rest.any (fun s => s.id == a.id) with _ | _
    · simp only [remove_duplicates, hany, Bool.false_eq_true, if_false,
        List.mem_cons] at h
      rcases h with h | h
      · exact h ▸ List.mem_cons_self a rest
      · exact List.mem_cons_of_mem a (ih h)
    · simp only [remove_duplicates, hany, if_true] at h
      exact List.mem_cons_of_mem a (ih h)

theorem getLast?_cons_of_ne_nil {α : Type} (a : α) {xs : List α}
    (h : xs ≠ []) : (a :: xs).getLast? = xs.getLast? := by
  cases xs with
  | nil => exact absurd rfl h
  | cons b ys => simp [List.getLast?_cons_cons]

theorem remove_duplicates_getLast {l : List Row} {r : Row}
    (h : r ∈ remove_duplicates l) :
    (l.filter (fun s => s.id == r.id)).getLast? = some r := by
  induction l with
  | nil => simp [remove_duplicates] at h
  | cons a rest ih =>
    rcases hany : rest.any (fun s => s.id == a.id) with _ | _
    · simp only [remove_duplicates, hany, Bool.false_eq_true, if_false] at h
      rcases List.mem_cons.mp h with hr | hr
      · subst hr
        have hrest : rest.filter (fun s => s.id == r.id) = [] := by
          refine List.filter_eq_nil_iff.mpr ?_
          intro s hs hsid
          have : rest.any (fun x => x.id == r.id) = true :=
            List.any_eq_true.mpr ⟨s, hs, hsid⟩
          simp [this] at hany
        rw [List.filter_cons_of_pos (by simp), hrest]
        rfl
      · have hrl : r ∈ rest := mem_of_mem_remove_duplicates hr
        have hne : (a.id == r.id) = false := by
          rcases hcase : a.id == r.id with _ | _
          · rfl
          · have : rest.any (fun s => s.id == a.id) = true := by
              refine List.any_eq_true.mpr ⟨r, hrl, ?_⟩
              have := Nat.beq_eq.mp (by simpa using hcase)
              simp [this]
            simp [this] at hany
        rw [List.filter_cons_of_neg (by simp [hne])]
        exact ih hr
    · simp only [remove_duplicates, hany, if_true] at h
      have hlast := ih h
      by_cases hid : (a.id == r.id) = true
      · have hne : rest.filter (fun s => s.id == r.id) ≠ [] := by
          intro hnil
          rw [hnil] at hlast
          simp at hlast
        have hstep : List.filter (fun s => s.id == r.id) (a :: rest) =
            a :: rest.filter (fun s => s.id == r.id) := by
          simp [List.filter_cons, hid]
        rw [hstep, getLast?_cons_of_ne_nil _ hne]
        exact hlast
      · have hid2 : (a.id == r.id) = false := by simpa using hid
        have hstep : List.filter (fun s => s.id == r.id) (a :: rest) =
            rest.filter (fun s => s.id == r.id) := by
          simp [List.filter_cons, hid2]
        rw [hstep]
        exact hlast

theorem createDate_of_mem_first_pull {t1 : Nat} {B1 : List Record} {r : Row}
    (h : r ∈ (sync_resource t1 freshDB B1).2.rows) :
    r.createDate = t1 ∧ r.lastModifiedDate = t1 := by
  have h2 : r ∈ freshDB.rows ++ sync_new_rows t1 freshDB B1 :=
    mem_of_mem_remove_duplicates (by simpa [sync_resource] using h)
  have hmem : r ∈ sync_new_rows t1 freshDB B1 := by
    simpa [freshDB] using h2
  rcases List.mem_map.mp hmem with ⟨rec, _, hrec⟩
  subst hrec
  simp [freshDB]

theorem ids_first_pull (t1 : Nat) (B1 : List Record) (i : Nat) :
    i ∈ (sync_resource t1 freshDB B1).2.rows.map Row.id ↔
      i ∈ B1.map Record.id := by
  simp only [sync_resource]
  rw [mem_id_remove_duplicates]
  simp [sync_new_rows, freshDB, List.mem_map]

/-- C1: reconciling batch B1 and then batch B2 against one durable store
leaves one row per identifier of the union of the two batches' identifier
sets; identifiers already seen in B1 (the overlap included) keep the
CreateDate of B1's call, identifiers new in B2 get B2's call time, and every
row of the batch returned by B2's call carries B2's call time as
LastModifiedDate. -/
theorem sync_two_pulls (t1 t2 : Nat) (B1 B2 : List Record)
    (_hOverlap : ∃ i, i ∈ B1.map Record.id ∧ i ∈ B2.map Record.id) :
    syncTwoPullsProp t1 t2 B1 B2 := by
  have hexists : (sync_resource t1 freshDB B1).2.tableExists = true := by
    simp [sync_resource]
  have hstore : twoPullStore t1 t2 B1 B2 =
      { tableExists := true
        rows := remove_duplicates ((sync_resource t1 freshDB B1).2.rows ++
          sync_new_rows t2 (sync_resource t1 freshDB B1).2 B2) } := rfl
  refine ⟨?_, ?_, ?_, ?_, ?_⟩
  · rw [hstore]
    exact nodup_id_remove_duplicates _
  · intro i
    rw [hstore]
    simp only [mem_id_remove_duplicates, List.map_append, List.mem_append]
    rw [ids_first_pull]
    constructor
    · rintro (h | h)
      · exact Or.inl h
      · refine Or.inr ?_
        rcases List.mem_map.mp h with ⟨r, hr, hrid⟩
        rcases List.mem_map.mp (by simpa [sync_new_rows] using hr) with
          ⟨rec, hrec, hmk⟩
        exact List.mem_map.mpr ⟨rec, hrec, by rw [← hrid, ← hmk]⟩
    · rintro (h | h)
      · exact Or.inl h
      · exact Or.inr (by
          simpa [sync_new_rows, List.map_map, Function.comp] using h)
  · intro r hr hrB1
    rw [hstore] at hr
    have hr2 := mem_of_mem_remove_duplicates hr
    rcases List.mem_append.mp hr2 with hfirst | hsecond
    · exact (createDate_of_mem_first_pull hfirst).1
    · rcases List.mem_map.mp (by simpa [sync_new_rows] using hsecond) with
        ⟨rec, hrec, hmk⟩
      have hid : rec.id = r.id := by rw [← hmk]
      have hmem1 : r.id ∈ (sync_resource t1 freshDB B1).2.rows.map Row.id :=
        (ids_first_pull t1 B1 r.id).mpr hrB1
      rcases List.mem_map.mp hmem1 with ⟨row0, hrow0, hrow0id⟩
      have hfind : ((sync_resource t1 freshDB B1).2.rows.find?
          (fun s => s.id == rec.id)).isSome :=
        List.find?_isSome.mpr ⟨row0, hrow0, by simp [hrow0id, hid]⟩
      rcases Option.isSome_iff_exists.mp hfind with ⟨row1, hrow1⟩
      have hrow1mem := List.mem_of_find?_eq_some hrow1
      have hcd : r.createDate = row1.createDate := by
        rw [← hmk]
        simp [hexists, get_created_date, hrow1]
      rw [hcd]
      exact (createDate_of_mem_first_pull hrow1mem).1
  · intro r hr hrB1
    rw [hstore] at hr
    have hr2 := mem_of_mem_remove_duplicates hr
    rcases List.mem_append.mp hr2 with hfirst | hsecond
    · exact absurd ((ids_first_pull t1 B1 r.id).mp
        (List.mem_map.mpr ⟨r, hfirst, rfl⟩)) hrB1
    · rcases List.mem_map.mp (by simpa [sync_new_rows] using hsecond) with
        ⟨rec, hrec, hmk⟩
      have hid : rec.id = r.id := by rw [← hmk]
      have hfind : (sync_resource t1 freshDB B1).2.rows.find?
          (fun s => s.id == rec.id) = none := by
        refine List.find?_eq_none.mpr ?_
        intro s hs hsid
        have : s.id = rec.id := by simpa using hsid
        exact hrB1 ((ids_first_pull t1 B1 r.id).mp
          (List.mem_map.mpr ⟨s, hs, by rw [this, hid]⟩))
      rw [← hmk]
      simp [hexists, get_created_date, hfind]
  · intro r hr
    rcases List.mem_map.mp (by simpa [sync_resource, sync_new_rows] using hr)
      with ⟨rec, hrec, hmk⟩
    rw [← hmk]

/-- C2: after any `sync_resource` call on any prior store state and any
nonempty batch, the store holds exactly one row per distinct identifier —
the most recently written row for that identifier — and the identifier set
is the previous set united with the batch's, so it never shrinks. -/
theorem sync_resource_store_invariant (now : Nat) (db : SyncDB)
    (batch : List Record) (_hbatch : batch ≠ []) :
    syncInvariantProp now db batch := by
  refine ⟨?_, ?_, ?_⟩
  · exact nodup_id_remove_duplicates _
  · intro i
    show i ∈ (remove_duplicates (db.rows ++ sync_new_rows now db batch)).map
        Row.id ↔ _
    rw [mem_id_remove_duplicates]
    simp only [List.map_append, List.mem_append]
    constructor
    · rintro (h | h)
      · exact Or.inl h
      · refine Or.inr ?_
        rcases List.mem_map.mp h with ⟨r, hr, hrid⟩
        rcases List.mem_map.mp (by simpa [sync_new_rows] using hr) with
          ⟨rec, hrec, hmk⟩
        exact List.mem_map.mpr ⟨rec, hrec, by rw [← hrid, ← hmk]⟩
    · rintro (h | h)
      · exact Or.inl h
      · exact Or.inr (by
          simpa [sync_new_rows, List.map_map, Function.comp] using h)
  · intro r hr
    exact remove_duplicates_getLast hr

/-- C5 counterexample: with one row of identifier 1 already stored, a storage
failure striking between the committed append (`_write_resource_to_db`) and
the separate duplicate-pruning statement leaves the store holding the
appended batch — two rows with identifier 1 — not its pre-call state. -/
theorem sync_failure_not_atomic :
    ((sync_resource_with_failure .betweenWriteAndPrune 2
        (sync_resource 1 freshDB [⟨1, 10⟩]).2 [⟨1, 11⟩]).2 ≠
      (sync_resource 1 freshDB [⟨1, 10⟩]).2) ∧
    ((sync_resource_with_failure .betweenWriteAndPrune 2
        (sync_resource 1 freshDB [⟨1, 10⟩]).2 [⟨1, 11⟩]).2.rows.map Row.id =
      [1, 1]) := by decide

/-- C5 amended: a failure before the append leaves the store unchanged and
the call returns no batch; the append is committed separately from the
pruning, so a failure between the two leaves the whole appended batch
visible (duplicates unpruned); only a failure-free call reaches the pruned
state. -/
theorem sync_failure_partial_state (now : Nat) (db : SyncDB)
    (batch : List Record) :
    ((sync_resource_with_failure .beforeWrite now db batch).1 = none ∧
      (sync_resource_with_failure .beforeWrite now db batch).2 = db) ∧
    ((sync_resource_with_failure .betweenWriteAndPrune now db batch).1 =
        none ∧
      (sync_resource_with_failure .betweenWriteAndPrune now db batch).2.rows =
        db.rows ++ sync_new_rows now db batch) ∧
    ((sync_resource_with_failure .noFailure now db batch).2 =
      (sync_resource now db batch).2) := by
  simp [sync_resource_with_failure]

/-- Witness for C1 at concrete batches overlapping on identifier 1. -/
theorem sync_two_pulls_witness :
    (∃ i, i ∈ ([⟨1, 10⟩] : List Record).map Record.id ∧
        i ∈ ([⟨1, 11⟩, ⟨2, 12⟩] : List Record).map Record.id) ∧
      syncTwoPullsProp 5 9 [⟨1, 10⟩] [⟨1, 11⟩, ⟨2, 12⟩] :=
  ⟨⟨1, by decide, by decide⟩,
    sync_two_pulls 5 9 [⟨1, 10⟩] [⟨1, 11⟩, ⟨2, 12⟩] ⟨1, by decide, by decide⟩⟩

/-- Witness for C2 at a concrete store and batch. -/
theorem sync_resource_store_invariant_witness :
    (([⟨1, 10⟩, ⟨2, 12⟩] : List Record) ≠ []) ∧
      syncInvariantProp 3 (sync_resource 1 freshDB [⟨2, 7⟩]).2
        [⟨1, 10⟩, ⟨2, 12⟩] :=
  ⟨by decide,
    sync_resource_store_invariant 3 (sync_resource 1 freshDB [⟨2, 7⟩]).2
      [⟨1, 10⟩, ⟨2, 12⟩] (by decide)⟩

end Sync

namespace Loader

theorem map_id_of_forall_eq {α : Type} {f : α → α} {l : List α}
    (h : ∀ x ∈ l, f x = x) : l.map f = l := by
  induction l with
  | nil => rfl
  | cons a rest ih =>
    rw [List.map_cons, h a (List.mem_cons_self a rest),
      ih (fun x hx => h x (List.mem_cons_of_mem a hx))]

theorem prodKey_copy_updates_row (stg : List StgRow) (t : ProdRow) :
    prodKey (copy_updates_row stg t) = prodKey t := by
  unfold copy_updates_row
  cases stg.find? (fun s => key_matches t s &&
      !(t.lastModifiedDate == s.lastModifiedDate)) with
  | none => rfl
  | some s => rfl

theorem prodKey_soft_delete_row (now : Nat) (ss : String) (stg : List StgRow)
    (t : ProdRow) : prodKey (soft_delete_row now ss stg t) = prodKey t := by
  unfold soft_delete_row
  split <;> rfl

theorem lastModifiedDate_soft_delete_row (now : Nat) (ss : String)
    (stg : List StgRow) (t : ProdRow) :
    (soft_delete_row now ss stg t).lastModifiedDate = t.lastModifiedDate := by
  unfold soft_delete_row
  split <;> rfl

theorem key_matches_congr {t u : ProdRow} (h : prodKey t = prodKey u)
    (s : StgRow) : key_matches t s = key_matches u s := by
  have h1 : t.sourceSystem = u.sourceSystem := congrArg Prod.fst h
  have h2 : t.sourceSystemIdentifier = u.sourceSystemIdentifier :=
    congrArg Prod.snd h
  simp [key_matches, h1, h2]

theorem insert_new_covers (prod : List ProdRow) (stg : List StgRow) :
    ∀ s ∈ stg, ∃ t ∈ insert_new_records_to_production prod stg,
      key_matches t s = true := by
  intro s hs
  rcases hany : prod.any (fun t => key_matches t s) with _ | _
  · refine ⟨⟨s.sourceSystem, s.sourceSystemIdentifier, s.attributes,
      s.lastModifiedDate, s.createDate, none⟩, ?_, ?_⟩
    · unfold insert_new_records_to_production
      refine List.mem_append_right _ ?_
      refine List.mem_map.mpr ⟨s, ?_, rfl⟩
      exact List.mem_filter.mpr ⟨hs, by simp [hany]⟩
    · simp [key_matches]
  · rcases List.any_eq_true.mp hany with ⟨t, ht, ht2⟩
    exact ⟨t, List.mem_append_left _ ht, ht2⟩

theorem exists_key_map {g : ProdRow → ProdRow}
    (hg : ∀ t, prodKey (g t) = prodKey t) (l : List ProdRow) (s : StgRow)
    (h : ∃ t ∈ l, key_matches t s = true) :
    ∃ t ∈ l.map g, key_matches t s = true := by
  rcases h with ⟨t, ht, hk⟩
  exact ⟨g t, List.mem_map.mpr ⟨t, ht, rfl⟩,
    by rw [key_matches_congr (hg t) s]; exact hk⟩

theorem apply_merge_covers (now1 : Nat) (ss : String) (prod : List ProdRow)
    (stg : List StgRow) :
    ∀ s ∈ stg, ∃ t ∈ apply_merge now1 ss prod stg, key_matches t s = true := by
  intro s hs
  unfold apply_merge soft_delete_from_production copy_updates_to_production
  exact exists_key_map (fun t => prodKey_soft_delete_row now1 ss stg t) _ s
    (exists_key_map (fun t => prodKey_copy_updates_row stg t) _ s
      (insert_new_covers prod stg s hs))

theorem copy_updates_lmd_agree (stg : List StgRow)
    (hstg : (stg.map stgKey).Nodup) (u : ProdRow) (s : StgRow) (hs : s ∈ stg)
    (hk : key_matches (copy_updates_row stg u) s = true) :
    (copy_updates_row stg u).lastModifiedDate = s.lastModifiedDate := by
  rw [key_matches_congr (prodKey_copy_updates_row stg u) s] at hk
  cases hfind : stg.find? (fun s2 => key_matches u s2 &&
      !(u.lastModifiedDate == s2.lastModifiedDate)) with
  | none =>
    have hall := List.find?_eq_none.mp hfind s hs
    simp only [hk, Bool.true_and, Bool.not_eq_true', beq_iff_eq,
      Bool.not_eq_true] at hall
    have hcur : copy_updates_row stg u = u := by
      unfold copy_updates_row
      rw [hfind]
    rw [hcur]
    simpa using hall
  | some s1 =>
    have h1 := List.find?_some hfind
    have hs1mem := List.mem_of_find?_eq_some hfind
    simp only [Bool.and_eq_true] at h1
    have hcur : copy_updates_row stg u = update_columns_applied u s1 := by
      unfold copy_updates_row
      rw [hfind]
    have hkc : u.sourceSystemIdentifier = s.sourceSystemIdentifier ∧
        u.sourceSystem = s.sourceSystem := by
      simpa [key_matches] using hk
    have hkc1 : u.sourceSystemIdentifier = s1.sourceSystemIdentifier ∧
        u.sourceSystem = s1.sourceSystem := by
      simpa [key_matches] using h1.1
    have hkeys : stgKey s = stgKey s1 := by
      unfold stgKey
      rw [← hkc.1, ← hkc.2, hkc1.1, hkc1.2]
    have hss : s = s1 := List.inj_on_of_nodup_map hstg hs hs1mem hkeys
    rw [hcur, hss]
    rfl

theorem apply_merge_lmd_agree (now1 : Nat) (ss : String) (prod : List ProdRow)
    (stg : List StgRow) (hstg : (stg.map stgKey).Nodup) :
    ∀ t ∈ apply_merge now1 ss prod stg, ∀ s ∈ stg,
      key_matches t s = true → t.lastModifiedDate = s.lastModifiedDate := by
  intro t ht s hs hk
  unfold apply_merge soft_delete_from_production at ht
  rcases List.mem_map.mp ht with ⟨u, hu, hut⟩
  unfold copy_updates_to_production at hu
  rcases List.mem_map.mp hu with ⟨v, hv, hvu⟩
  subst hut
  subst hvu
  rw [lastModifiedDate_soft_delete_row now1 ss stg _]
  have hkey : key_matches (copy_updates_row stg v) s = true := by
    rw [← key_matches_congr (prodKey_soft_delete_row now1 ss stg _) s]
    exact hk
  exact copy_updates_lmd_agree stg hstg v s hs hkey

theorem soft_delete_idempotent (now1 now2 : Nat) (ss : String)
    (prod : List ProdRow) (stg : List StgRow) :
    soft_delete_from_production now2 ss
        (soft_delete_from_production now1 ss prod stg) stg =
      soft_delete_from_production now1 ss prod stg := by
  unfold soft_delete_from_production
  refine map_id_of_forall_eq ?_
  intro t ht
  rcases List.mem_map.mp ht with ⟨u, hu, hut⟩
  subst hut
  by_cases hcond : (!(stg.any fun s => key_matches u s) && u.deletedAt.isNone
      && (u.sourceSystem == ss)) = true
  · have h1 : soft_delete_row now1 ss stg u = { u with deletedAt := some now1 } := by
      unfold soft_delete_row
      rw [if_pos hcond]
    rw [h1]
    unfold soft_delete_row
    rw [if_neg]
    simp [key_matches]
  · have h1 : soft_delete_row now1 ss stg u = u := by
      unfold soft_delete_row
      rw [if_neg hcond]
    rw [h1]
    unfold soft_delete_row
    rw [if_neg hcond]

/-- C8: the update-changed operation touches only production rows that have a
key-matching staging row with a differing `LastModifiedDate`; the touched
rows get only their mutable columns (`attributes`, `LastModifiedDate`,
`DeletedAt`) overwritten from staging, while `CreateDate` and the natural key
are never overwritten, and every other row is left entirely unchanged. -/
theorem copy_updates_scope (prod : List ProdRow) (stg : List StgRow) :
    copyUpdatesScopeProp prod stg := by
  refine ⟨rfl, ?_, ?_, ?_⟩
  · intro t hagree
    have hfind : stg.find? (fun s2 => key_matches t s2 &&
        !(t.lastModifiedDate == s2.lastModifiedDate)) = none := by
      refine List.find?_eq_none.mpr ?_
      intro s hs
      rcases hkm : key_matches t s with _ | _
      · simp [hkm]
      · simp [hkm, hagree s hs hkm]
    unfold copy_updates_row
    rw [hfind]
  · intro t s hfind
    have h1 := List.find?_some hfind
    have h2 := List.mem_of_find?_eq_some hfind
    simp only [Bool.and_eq_true] at h1
    have hcur : copy_updates_row stg t = update_columns_applied t s := by
      unfold copy_updates_row
      rw [hfind]
    refine ⟨hcur, h1.1, ?_, h2⟩
    simpa using h1.2
  · intro t s
    exact ⟨rfl, rfl, rfl, rfl, rfl, rfl⟩

/-- C6: the soft delete sets `DeletedAt` only on not-yet-deleted rows of the
load's source system that miss from staging — so a deletion timestamp, once
set, is never modified by any later run and re-running the soft delete is a
no-op — and the un-delete pass clears any stale `DeletedAt` on submission
types whose assignment reappears in staging. -/
theorem soft_delete_lifecycle (now : Nat) (ss : String) (stg : List StgRow)
    (assignments : List AssignmentRow) (stypes : List SubTypeRow)
    (sstg : List StgSubTypeRow) :
    softDeleteLifecycleProp now ss stg assignments stypes sstg := by
  refine ⟨?_, ?_, ?_, ?_, ?_⟩
  · intro t d hd
    unfold soft_delete_row
    rw [if_neg]
    simp [hd]
  · intro t hnone hnomatch hss
    unfold soft_delete_row
    rw [if_pos]
    have hany : stg.any (fun s => key_matches t s) = false := by
      refine List.any_eq_false.mpr ?_
      intro s hs
      simp [hnomatch s hs]
    simp [hany, hnone, hss]
  · intro t hex
    rcases hex with ⟨s, hs, hk⟩
    unfold soft_delete_row
    rw [if_neg]
    have hany : stg.any (fun s2 => key_matches t s2) = true :=
      List.any_eq_true.mpr ⟨s, hs, hk⟩
    simp [hany]
  · intro now2 prod
    exact soft_delete_idempotent now now2 ss prod stg
  · intro r hr hcond
    unfold unsoft_delete_returned_submission_types at hr
    rcases List.mem_map.mp hr with ⟨r0, hr0, hr0r⟩
    by_cases hc0 : subtype_returned assignments sstg ss r0 = true
    · rw [← hr0r]
      simp [hc0]
    · have hrr0 : r = r0 := by
        rw [← hr0r]
        simp [hc0]
      rw [hrr0] at hcond
      exact absurd hcond hc0

/-- C3: applying the production merge a second time with identical staging
content affects zero rows — the insert inserts nothing because every staging
key is already present, the update finds no row with a differing
`LastModifiedDate`, and the soft delete finds no not-yet-deleted missing
row. -/
theorem merge_second_application_no_op (now1 now2 : Nat) (ss : String)
    (prod : List ProdRow) (stg : List StgRow)
    (hstg : (stg.map stgKey).Nodup) :
    mergeSecondApplicationProp now1 now2 ss prod stg := by
  refine ⟨?_, ?_, ?_⟩
  · have hfilter : stg.filter (fun s =>
        !((apply_merge now1 ss prod stg).any (fun t => key_matches t s))) =
          [] := by
      refine List.filter_eq_nil_iff.mpr ?_
      intro s hs
      rcases apply_merge_covers now1 ss prod stg s hs with ⟨t, ht, hk⟩
      have hany : (apply_merge now1 ss prod stg).any
          (fun t => key_matches t s) = true :=
        List.any_eq_true.mpr ⟨t, ht, hk⟩
      simp [hany]
    unfold insert_new_records_to_production
    rw [hfilter]
    simp
  · have hrows : ∀ t ∈ apply_merge now1 ss prod stg,
        copy_updates_row stg t = t := by
      intro t ht
      have hfind : stg.find? (fun s2 => key_matches t s2 &&
          !(t.lastModifiedDate == s2.lastModifiedDate)) = none := by
        refine List.find?_eq_none.mpr ?_
        intro s hs
        rcases hkm : key_matches t s with _ | _
        · simp [hkm]
        · simp [hkm, apply_merge_lmd_agree now1 ss prod stg hstg t ht s hs hkm]
      unfold copy_updates_row
      rw [hfind]
    unfold copy_updates_to_production
    exact map_id_of_forall_eq hrows
  · exact soft_delete_idempotent now1 now2 ss
      (copy_updates_to_production
        (insert_new_records_to_production prod stg) stg) stg

/-- Witness for C3 at a concrete production table and staging batch. -/
theorem merge_second_application_no_op_witness :
    ((([⟨"Canvas", "a", 5, 10, 1⟩] : List StgRow).map stgKey).Nodup) ∧
      mergeSecondApplicationProp 7 9 "Canvas"
        [⟨"Canvas", "b", 1, 2, 0, none⟩] [⟨"Canvas", "a", 5, 10, 1⟩] :=
  ⟨by decide,
    merge_second_application_no_op 7 9 "Canvas"
      [⟨"Canvas", "b", 1, 2, 0, none⟩] [⟨"Canvas", "a", 5, 10, 1⟩]
      (by decide)⟩

theorem length_filter_eq_ite_of_nodup {α β : Type} [DecidableEq β]
    (l : List α) (f : α → β) (p : α → Bool) (k : β)
    (hnd : (l.map f).Nodup) (hp : ∀ a, p a = true → f a = k) :
    (l.filter p).length = if l.any p then 1 else 0 := by
  induction l with
  | nil => simp
  | cons a rest ih =>
    rw [List.map_cons, List.nodup_cons] at hnd
    rcases hpa : p a with _ | _
    · have := ih hnd.2
      simpa [List.filter_cons, List.any_cons, hpa] using this
    · have hrest : rest.filter p = [] := by
        refine List.filter_eq_nil_iff.mpr ?_
        intro b hb hpb
        refine hnd.1 ?_
        rw [hp a hpa, ← hp b hpb]
        exact List.mem_map.mpr ⟨b, hb, rfl⟩
      simp [List.filter_cons, List.any_cons, hpa, hrest]

theorem user_join_rows_key (users : List UserRow) (s : UserRelStgRow)
    (t : UserRelProdRow) (ht : t ∈ user_join_rows users s) :
    t.sourceSystem = s.sourceSystem ∧
      t.sourceSystemIdentifier = s.sourceSystemIdentifier := by
  unfold user_join_rows at ht
  rcases List.mem_map.mp ht with ⟨u, hu, hut⟩
  subst hut
  exact ⟨rfl, rfl⟩

theorem filter_user_join_rows (users : List UserRow) (s : UserRelStgRow)
    (a b : String) :
    ((user_join_rows users s).filter (fun t =>
        t.sourceSystem == a && t.sourceSystemIdentifier == b)).length =
      if (s.sourceSystem == a && s.sourceSystemIdentifier == b) then
        (user_join_rows users s).length
      else 0 := by
  rcases hcase : (s.sourceSystem == a && s.sourceSystemIdentifier == b)
    with _ | _
  · have hnil : (user_join_rows users s).filter (fun t =>
        t.sourceSystem == a && t.sourceSystemIdentifier == b) = [] := by
      refine List.filter_eq_nil_iff.mpr ?_
      intro t ht hpt
      rcases user_join_rows_key users s t ht with ⟨h1, h2⟩
      rw [h1, h2] at hpt
      simp [hpt] at hcase
    simp [hcase, hnil]
  · have hself : (user_join_rows users s).filter (fun t =>
        t.sourceSystem == a && t.sourceSystemIdentifier == b) =
          user_join_rows users s := by
      refine List.filter_eq_self.mpr ?_
      intro t ht
      rcases user_join_rows_key users s t ht with ⟨h1, h2⟩
      rw [h1, h2]
      exact hcase
    simp [hcase, hself]

theorem flatMap_filter_key_nil (users : List UserRow) (a b : String)
    (stgl : List UserRelStgRow) (q : UserRelStgRow → Bool)
    (hall : ∀ s ∈ stgl,
      (s.sourceSystem == a && s.sourceSystemIdentifier == b) = false) :
    (((stgl.filter q).flatMap (user_join_rows users)).filter (fun t =>
        t.sourceSystem == a && t.sourceSystemIdentifier == b)).length = 0 := by
  induction stgl with
  | nil => simp
  | cons s rest ih =>
    have hrest := ih (fun s2 hs2 => hall s2 (List.mem_cons_of_mem s hs2))
    rcases hq : q s with _ | _
    · simpa [List.filter_cons, hq] using hrest
    · simp [List.filter_cons, hq, List.flatMap_cons, List.filter_append,
        filter_user_join_rows, hall s (List.mem_cons_self s rest), hrest]

theorem flatMap_filter_key_count (users : List UserRow) (s : UserRelStgRow)
    (stgl : List UserRelStgRow) (q : UserRelStgRow → Bool)
    (hnd : (stgl.map (fun x =>
      (x.sourceSystem, x.sourceSystemIdentifier))).Nodup)
    (hs : s ∈ stgl) (hq : q s = true) :
    (((stgl.filter q).flatMap (user_join_rows users)).filter (fun t =>
        t.sourceSystem == s.sourceSystem &&
          t.sourceSystemIdentifier == s.sourceSystemIdentifier)).length =
      (user_join_rows users s).length := by
  induction stgl with
  | nil => simp at hs
  | cons s0 rest ih =>
    rw [List.map_cons, List.nodup_cons] at hnd
    rcases List.mem_cons.mp hs with hhead | htail
    · subst hhead
      have hzero := flatMap_filter_key_nil users s.sourceSystem
        s.sourceSystemIdentifier rest q (by
          intro s2 hs2
          rcases hb : (s2.sourceSystem == s.sourceSystem &&
              s2.sourceSystemIdentifier == s.sourceSystemIdentifier)
            with _ | _
          · rfl
          · exfalso
            simp only [Bool.and_eq_true, beq_iff_eq] at hb
            exact hnd.1 (List.mem_map.mpr ⟨s2, hs2, by rw [hb.1, hb.2]⟩))
      simp [List.filter_cons, hq, List.flatMap_cons, List.filter_append,
        filter_user_join_rows, hzero]
    · have hkey0 : (s0.sourceSystem == s.sourceSystem &&
          s0.sourceSystemIdentifier == s.sourceSystemIdentifier) = false := by
        rcases hb : (s0.sourceSystem == s.sourceSystem &&
            s0.sourceSystemIdentifier == s.sourceSystemIdentifier) with _ | _
        · rfl
        · exfalso
          simp only [Bool.and_eq_true, beq_iff_eq] at hb
          exact hnd.1 (List.mem_map.mpr ⟨s, htail, by rw [hb.1, hb.2]⟩)
      have hih := ih hnd.2 htail
      rcases hq0 : q s0 with _ | _
      · simpa [List.filter_cons, hq0] using hih
      · simp [List.filter_cons, hq0, List.flatMap_cons, List.filter_append,
          filter_user_join_rows, hkey0, hih]

/-- C7: a staging row whose natural key is absent from production yields
exactly one new production row when its `LMSUser` reference resolves, and
zero rows when it does not — the statement simply inserts nothing for that
row, with no error. -/
theorem insert_user_relation_resolution (prod : List UserRelProdRow)
    (stg : List UserRelStgRow) (users : List UserRow) (s : UserRelStgRow)
    (hs : s ∈ stg)
    (hstg : (stg.map (fun x =>
      (x.sourceSystem, x.sourceSystemIdentifier))).Nodup)
    (husers : (users.map (fun u =>
      (u.sourceSystem, u.sourceSystemIdentifier))).Nodup)
    (hnew : relKeyCount prod s.sourceSystem s.sourceSystemIdentifier = 0) :
    relKeyCount
        (insert_new_records_to_production_for_user_relation prod stg users)
        s.sourceSystem s.sourceSystemIdentifier =
      if users.any (fun u =>
          s.lmsUserSourceSystemIdentifier == u.sourceSystemIdentifier &&
            s.sourceSystem == u.sourceSystem) then 1 else 0 := by
  have hprodnil : prod.filter (fun t => t.sourceSystem == s.sourceSystem &&
      t.sourceSystemIdentifier == s.sourceSystemIdentifier) = [] := by
    unfold relKeyCount at hnew
    exact List.length_eq_zero.mp hnew
  have hq : (!(prod.any (fun t =>
      t.sourceSystemIdentifier == s.sourceSystemIdentifier &&
        t.sourceSystem == s.sourceSystem))) = true := by
    have hanyf : prod.any (fun t =>
        t.sourceSystemIdentifier == s.sourceSystemIdentifier &&
          t.sourceSystem == s.sourceSystem) = false := by
      refine List.any_eq_false.mpr ?_
      intro t ht hp
      have htf : t ∈ prod.filter (fun t2 =>
          t2.sourceSystem == s.sourceSystem &&
            t2.sourceSystemIdentifier == s.sourceSystemIdentifier) := by
        refine List.mem_filter.mpr ⟨ht, ?_⟩
        simp only [Bool.and_eq_true, beq_iff_eq] at hp ⊢
        exact ⟨hp.2, hp.1⟩
      rw [hprodnil] at htf
      simp at htf
    simp [hanyf]
  have husersLen : (users.filter (fun u =>
      s.lmsUserSourceSystemIdentifier == u.sourceSystemIdentifier &&
        s.sourceSystem == u.sourceSystem)).length =
      if users.any (fun u =>
          s.lmsUserSourceSystemIdentifier == u.sourceSystemIdentifier &&
            s.sourceSystem == u.sourceSystem) then 1 else 0 := by
    refine length_filter_eq_ite_of_nodup users
      (fun u => (u.sourceSystem, u.sourceSystemIdentifier)) _
      (s.sourceSystem, s.lmsUserSourceSystemIdentifier) husers ?_
    intro u hu
    simp only [Bool.and_eq_true, beq_iff_eq] at hu
    rw [Prod.ext_iff]
    exact ⟨hu.2.symm, hu.1.symm⟩
  have hcount := flatMap_filter_key_count users s stg
    (fun s2 => !(prod.any (fun t =>
      t.sourceSystemIdentifier == s2.sourceSystemIdentifier &&
        t.sourceSystem == s2.sourceSystem))) hstg hs hq
  unfold insert_new_records_to_production_for_user_relation relKeyCount
  rw [List.filter_append, List.length_append, hprodnil, hcount]
  unfold user_join_rows
  rw [List.length_map, husersLen]
  simp

/-- Witness for C7 at a staging row whose user reference resolves. -/
theorem insert_user_relation_resolution_witness :
    (let s : UserRelStgRow := ⟨"Canvas", "x", "u1", 3⟩
     let stg : List UserRelStgRow := [⟨"Canvas", "x", "u1", 3⟩]
     let users : List UserRow := [⟨42, "Canvas", "u1"⟩]
     s ∈ stg ∧
       ((stg.map (fun x =>
         (x.sourceSystem, x.sourceSystemIdentifier))).Nodup) ∧
       ((users.map (fun u =>
         (u.sourceSystem, u.sourceSystemIdentifier))).Nodup) ∧
       relKeyCount [] s.sourceSystem s.sourceSystemIdentifier = 0 ∧
       relKeyCount
           (insert_new_records_to_production_for_user_relation [] stg users)
           s.sourceSystem s.sourceSystemIdentifier =
         if users.any (fun u =>
             s.lmsUserSourceSystemIdentifier == u.sourceSystemIdentifier &&
               s.sourceSystem == u.sourceSystem) then 1 else 0) :=
  ⟨by decide, by decide, by decide, by decide,
    insert_user_relation_resolution [] [⟨"Canvas", "x", "u1", 3⟩]
      [⟨42, "Canvas", "u1"⟩] ⟨"Canvas", "x", "u1", 3⟩ (by decide) (by decide)
      (by decide) (by decide)⟩

end Loader

namespace Migrator

/-- C4 evaluation at the failing input: `migrate` records only the base name
of a script it ran in the journal, but checks the journal for the full
script path, so a second invocation on the already-migrated database runs
the same script again instead of skipping it. -/
theorem migrate_reruns_recorded_script :
    (migrate []
        ["edfi_lms_ds_loader/scripts/mssql/0001-initialize-lms-database.sql"]).2 =
        ["0001-initialize-lms-database.sql"] ∧
      (migrate
          (migrate []
            ["edfi_lms_ds_loader/scripts/mssql/0001-initialize-lms-database.sql"]).2
          ["edfi_lms_ds_loader/scripts/mssql/0001-initialize-lms-database.sql"]).1 =
        ["edfi_lms_ds_loader/scripts/mssql/0001-initialize-lms-database.sql"] := by
  decide

end Migrator

namespace Mapping

/-- C9 counterexample: the Google Classroom sections mapper does not tolerate
the empty input batch `pd.DataFrame()` — its required-column assert fails
and the call raises instead of returning an empty UDM-shaped result. -/
theorem courses_to_sections_df_errors_on_empty :
    courses_to_sections_df { columns := [], rows := [] } =
      Except.error "AssertionError: id" := rfl

/-- C9 amended: on an empty input batch the Schoology submissions mapper
returns the empty input unchanged (not reshaped to the UDM columns), the
Schoology attendance mapper returns an empty column-less frame, and the
Google Classroom sections mapper returns an empty UDM-shaped frame when the
required input columns are present but raises an assertion failure when the
empty input lacks them; none of the three raises on an empty input carrying
its expected columns. -/
theorem mappers_empty_input (cols : List String) (sa : DataFrame) :
    submissions_map_to_udm { columns := cols, rows := [] } =
        Except.ok { columns := cols, rows := [] } ∧
      attendance_map_to_udm [] sa = Except.ok { columns := [], rows := [] } ∧
      courses_to_sections_df { columns := courseInputColumns, rows := [] } =
        Except.ok { columns := sectionUdmColumns, rows := [] } ∧
      courses_to_sections_df { columns := [], rows := [] } =
        Except.error "AssertionError: id" := by
  refine ⟨?_, rfl, rfl, rfl⟩
  simp [submissions_map_to_udm, DataFrame.isEmptyDF]

end Mapping

namespace Canvas

theorem students_dedup_mem (l : List Student) (i : String) :
    i ∈ (remove_duplicates l).map Student.id ↔ i ∈ l.map Student.id := by
  induction l with
  | nil => simp [remove_duplicates]
  | cons s rest ih =>
    simp only [remove_duplicates, List.map_cons, List.mem_cons]
    constructor
    · rintro (h | h)
      · exact Or.inl h
      · rcases List.mem_map.mp h with ⟨t, ht, hti⟩
        have ht2 := List.mem_of_mem_filter ht
        exact Or.inr (ih.mp (List.mem_map.mpr ⟨t, ht2, hti⟩))
    · rintro (h | h)
      · exact Or.inl h
      · by_cases his : i = s.id
        · exact Or.inl his
        · refine Or.inr ?_
          rcases List.mem_map.mp (ih.mpr h) with ⟨t, ht, hti⟩
          refine List.mem_map.mpr ⟨t, ?_, hti⟩
          refine List.mem_filter.mpr ⟨ht, ?_⟩
          simp [hti, his]

theorem students_dedup_nodup (l : List Student) :
    ((remove_duplicates l).map Student.id).Nodup := by
  induction l with
  | nil => simp [remove_duplicates]
  | cons s rest ih =>
    simp only [remove_duplicates, List.map_cons]
    refine List.Nodup.cons ?_ ?_
    · intro hmem
      rcases List.mem_map.mp hmem with ⟨t, ht, hti⟩
      have hf := List.mem_filter.mp ht
      simp [hti] at hf
    · have hsub : (((remove_duplicates rest).filter
          (fun t => !(t.id == s.id))).map Student.id).Sublist
            ((remove_duplicates rest).map Student.id) :=
        (List.filter_sublist _).map _
      exact hsub.nodup ih

/-- C10: `get_students` returns every extracted student id exactly once —
the per-enrollment duplicates are removed — and the returned list is in
ascending order of student id. -/
theorem get_students_unique_sorted (students : List Student) :
    (((get_students students).map Student.id).Nodup) ∧
      (∀ i, i ∈ (get_students students).map Student.id ↔
        i ∈ students.map Student.id) ∧
      (∀ i ∈ students.map Student.id,
        ((get_students students).map Student.id).count i = 1) ∧
      List.Sorted (· ≤ ·) ((get_students students).map Student.id) := by
  have hperm : (get_students students).Perm (remove_duplicates students) :=
    List.perm_insertionSort studentLE (remove_duplicates students)
  have hpermMap : ((get_students students).map Student.id).Perm
      ((remove_duplicates students).map Student.id) := hperm.map Student.id
  have hnd : ((get_students students).map Student.id).Nodup :=
    (hpermMap.nodup_iff).mpr (students_dedup_nodup students)
  have hmem : ∀ i, i ∈ (get_students students).map Student.id ↔
      i ∈ students.map Student.id := by
    intro i
    rw [hpermMap.mem_iff]
    exact students_dedup_mem students i
  refine ⟨hnd, hmem, ?_, ?_⟩
  · intro i hi
    exact List.count_eq_one_of_mem hnd ((hmem i).mpr hi)
  · have hsorted : List.Sorted studentLE (get_students students) :=
      List.sorted_insertionSort studentLE (remove_duplicates students)
    exact List.Pairwise.map Student.id (fun a b h => h) hsorted

end Canvas

namespace Loader

/-- Witness for C6 at a concrete store, staging batch and submission-type
table. -/
theorem soft_delete_lifecycle_witness :
    softDeleteLifecycleProp 5 "Canvas" [⟨"Canvas", "a", 5, 10, 1⟩]
      [⟨7, "Canvas", "a"⟩] [⟨7, "online_text_entry", some 3⟩]
      [⟨"Canvas", "a", "online_text_entry"⟩] :=
  soft_delete_lifecycle 5 "Canvas" [⟨"Canvas", "a", 5, 10, 1⟩]
    [⟨7, "Canvas", "a"⟩] [⟨7, "online_text_entry", some 3⟩]
    [⟨"Canvas", "a", "online_text_entry"⟩]

/-- Witness for C8 at a concrete production table and staging batch. -/
theorem copy_updates_scope_witness :
    copyUpdatesScopeProp [⟨"Canvas", "a", 5, 10, 1, some 3⟩]
      [⟨"Canvas", "a", 6, 11, 1⟩] :=
  copy_updates_scope [⟨"Canvas", "a", 5, 10, 1, some 3⟩]
    [⟨"Canvas", "a", 6, 11, 1⟩]

end Loader

namespace Canvas

/-- Witness for C10 at a concrete duplicated, unsorted student list. -/
theorem get_students_unique_sorted_witness :
    (((get_students [⟨"9", "s9", "B"⟩, ⟨"10", "s10", "A"⟩,
        ⟨"9", "s9", "B"⟩]).map Student.id).Nodup) ∧
      (∀ i, i ∈ (get_students [⟨"9", "s9", "B"⟩, ⟨"10", "s10", "A"⟩,
          ⟨"9", "s9", "B"⟩]).map Student.id ↔
        i ∈ ([⟨"9", "s9", "B"⟩, ⟨"10", "s10", "A"⟩,
          ⟨"9", "s9", "B"⟩] : List Student).map Student.id) ∧
      (∀ i ∈ ([⟨"9", "s9", "B"⟩, ⟨"10", "s10", "A"⟩,
          ⟨"9", "s9", "B"⟩] : List Student).map Student.id,
        ((get_students [⟨"9", "s9", "B"⟩, ⟨"10", "s10", "A"⟩,
          ⟨"9", "s9", "B"⟩]).map Student.id).count i = 1) ∧
      List.Sorted (· ≤ ·) ((get_students [⟨"9", "s9", "B"⟩,
        ⟨"10", "s10", "A"⟩, ⟨"9", "s9", "B"⟩]).map Student.id) :=
  get_students_unique_sorted [⟨"9", "s9", "B"⟩, ⟨"10", "s10", "A"⟩,
    ⟨"9", "s9", "B"⟩]

end Canvas
